import Mathlib

/-!
Shallow embedding of the multi-model chat streaming backend
(`src/backend/server.py`) and proofs about its specification claims.

The embedding follows the source: pure helpers become Lean functions, the
`event_generator` coroutine becomes an explicit state-passing function that
returns the full outbound event list together with the final store state,
and the external world (HTTP providers, the single-shot LLM client) is an
oracle parameter.  Modelling conventions:

* Python strings are Lean `String`s; where kernel evaluation matters the
  character-level work is done on `List Char` (`String.toList`).
* `uuid.uuid4()` is modelled by a deterministic fresh-name supply
  (`uuidStr` applied to a counter in the state), and `datetime.now` by a
  logical clock (`Nat`) that ticks at each use.  Only freshness and
  monotonicity of these values matter to the claims.
* The SSE wire decoding of the token-stream adapter is abstracted to the
  list of already-decoded delta contents (`HttpOutcome.ok`); transport
  failures and non-success statuses are the other two outcomes, exactly as
  caught in `stream_openai_compatible` (server.py lines 310-346).
* The single-shot client call (`LlmChat.send_message`) is an oracle giving
  either the complete response string or an exception message
  (server.py lines 348-400); the prompt assembly feeds only the provider
  and is not observable in any claim.
* MongoDB collections are Lean lists; `insert_one` is append,
  `find(...).sort("timestamp", 1).limit(10)` is filter + stable insertion
  sort by timestamp + `take 10`, and the conversation
  `update_one(..., upsert=True)` updates the first matching row or appends
  a fresh one (server.py lines 427-433 and 623-638).
-/

namespace Multimodel

/-! ### Python string helpers -/

/-- Prefix test on character lists (Python `str.startswith`). -/
def leadMatch : List Char → List Char → Bool
  | [], _ => true
  | _ :: _, [] => false
  | a :: as, b :: bs => a == b && leadMatch as bs

/-- Substring test on character lists (Python `needle in hay`). -/
def subMatch (needle : List Char) : List Char → Bool
  | [] => needle.isEmpty
  | hay@(_ :: t) => leadMatch needle hay || subMatch needle t

/-- Substring test with a string needle. -/
def strHasSub (needle : String) (hay : List Char) : Bool :=
  subMatch needle.toList hay

/-- Characters treated as whitespace by Python `str.split()` (ASCII range). -/
def pyIsSpace (c : Char) : Bool :=
  c == ' ' || c == '\t' || c == '\n' || c == '\r' || c == Char.ofNat 11 || c == Char.ofNat 12

/-- Worker for `pyWords`: `acc` holds the current word reversed. -/
def pyWordsAux : List Char → List Char → List (List Char)
  | acc, [] => if acc.isEmpty then [] else [acc.reverse]
  | acc, c :: cs =>
    if pyIsSpace c then
      if acc.isEmpty then pyWordsAux [] cs else acc.reverse :: pyWordsAux [] cs
    else pyWordsAux (c :: acc) cs

/-- Python `response.split()`: maximal nonempty runs of non-whitespace. -/
def pyWords (s : List Char) : List (List Char) := pyWordsAux [] s

/-- Concatenation of a list of fragments (character-level). -/
def flattenL : List (List Char) → List Char
  | [] => []
  | w :: ws => w ++ flattenL ws

/-- Words joined by single spaces (the whitespace-normalised join). -/
def joinWords : List (List Char) → List Char
  | [] => []
  | [w] => w
  | w :: ws => w ++ ' ' :: joinWords ws

/-- Remove the single trailing injected delimiter, when present. -/
def trimDelimL : List Char → List Char
  | [] => []
  | [c] => if c == ' ' then [] else [c]
  | c :: rest => c :: trimDelimL rest

/-- Re-chunking step of the single-shot adapter (server.py lines 392-396):
`words = response.split()` and each word is emitted as `word + " "`. -/
def rechunkL (response : List Char) : List (List Char) :=
  (pyWords response).map (fun w => w ++ [' '])

/-- `rechunkL` at the string level, the fragments the adapter yields. -/
def rechunk (response : String) : List String :=
  (rechunkL response.toList).map (fun w => String.mk w)

/-- Concatenation of string fragments (the `full_response` accumulator). -/
def strJoin : List String → String
  | [] => ""
  | s :: ss => s ++ strJoin ss

/-! ### Provider classification and credential resolution -/

/-- The ordered routing rule table of `event_generator`
(server.py lines 462-589): each requested model string is matched, on its
lowercased form, against substring/leading-character rules; the result is
the provider family used for the credential lookup, or `none` when no rule
matches. -/
def classify (model_spec : String) : Option String :=
  let m := model_spec.toList.map Char.toLower
  if strHasSub "gpt" m || leadMatch "o".toList m then some "gpt"
  else if strHasSub "claude" m then some "claude"
  else if strHasSub "gemini" m then some "gemini"
  else if strHasSub "grok" m then some "grok"
  else if strHasSub "deepseek" m then some "deepseek"
  else if strHasSub "perplexity" m || strHasSub "sonar" m then some "perplexity"
  else none

/-- An authenticated user: identity plus the stored per-provider keys
(`current_user["api_keys"]`); `none` models an absent entry. -/
structure UserT where
  id : String
  api_keys : String → Option String

/-- `get_api_key` (server.py lines 301-308): the sentinel `"UNIVERSAL"`
resolves to the shared `EMERGENT_LLM_KEY` (empty default), otherwise the
stored key with `""` for an absent or empty entry. -/
def get_api_key (user : UserT) (emergentKey : Option String) (provider : String) : String :=
  let user_key := user.api_keys provider
  if user_key = some "UNIVERSAL" then emergentKey.getD ""
  else user_key.getD ""

/-! ### Provider adapters -/

/-- `json.dumps(\x7b"error": msg\x7d)` as produced by both adapters. -/
def jsonError (errmsg : String) : String :=
  "\x7b\"error\": \"" ++ errmsg ++ "\"\x7d"

/-- Outcome of the streaming HTTP call made by `stream_openai_compatible`:
a successful stream (already decoded delta contents), a non-success
status, or a transport exception. -/
inductive HttpOutcome where
  | ok (contents : List String)
  | badStatus (code : Nat) (body : String)
  | netFail (errmsg : String)
deriving DecidableEq

/-- `stream_openai_compatible` (server.py lines 310-346): yields the
nonempty decoded contents on success; a non-success status or an exception
is caught inside the adapter and yielded as a single serialized-error
fragment. -/
def stream_openai_compatible : HttpOutcome → List String
  | .ok contents => contents.filter (fun c => decide (c ≠ ""))
  | .badStatus code body => [jsonError ("API error: " ++ toString code ++ " - " ++ body)]
  | .netFail errmsg => [jsonError errmsg]

/-- One entry of the loaded history context (`messages_context`). -/
structure RoleContent where
  role : String
  content : String
deriving DecidableEq

/-- Outcome of the single-shot provider call (`chat.send_message`). -/
inductive ProviderResult where
  | ok (response : String)
  | exnFail (errmsg : String)
deriving DecidableEq

/-- `stream_emergent_model` (server.py lines 348-400): with no user
message in context it yields a single serialized error; otherwise the
provider's complete response is re-chunked word by word, and an exception
is caught and yielded as a single serialized-error fragment. -/
def stream_emergent_model (messages : List RoleContent) (result : ProviderResult) : List String :=
  let user_messages := messages.filter (fun m => decide (m.role = "user"))
  if user_messages.isEmpty then [jsonError "No user messages found"]
  else
    match result with
    | .ok response => rechunk response
    | .exnFail errmsg => [jsonError errmsg]

/-! ### Data model and store -/

/-- A row of the `messages` collection (server.py lines 418-426, 592-601). -/
structure Message where
  id : String
  conversation_id : String
  role : String
  content : String
  model : String
  timestamp : Nat
  user_id : String
  feedback : Option String
deriving DecidableEq

/-- A row of the `conversations` collection (server.py lines 623-638). -/
structure Conversation where
  id : String
  user_id : String
  title : String
  created_at : Nat
  updated_at : Nat
deriving DecidableEq

/-- The store plus the fresh-uuid supply and the logical clock. -/
structure St where
  messages : List Message
  conversations : List Conversation
  nextUuid : Nat
  now : Nat
deriving DecidableEq

/-- The outbound SSE events (server.py lines 451-621).  `error` events
carry no message id in the source, only the model and the error text. -/
inductive Event where
  | start (model message_id : String)
  | chunk (model message_id content : String)
  | complete (model message_id : String)
  | error (model errmsg : String)
deriving DecidableEq

/-- The model an event is tagged with. -/
def eventModel : Event → String
  | .start m _ => m
  | .chunk m _ _ => m
  | .complete m _ => m
  | .error m _ => m

/-- `ChatRequest` (server.py lines 96-99). -/
structure ChatRequest where
  message : String
  models : List String
  conversation_id : Option String

/-- The external world of one request: per-model streaming HTTP behaviour
and per-model single-shot provider behaviour. -/
structure Oracle where
  http : String → HttpOutcome
  llm : String → ProviderResult

/-- `uuid.uuid4()` modelled by a deterministic supply. -/
def uuidStr (n : Nat) : String := "uuid-" ++ toString n

/-- Insert a message into a timestamp-ascending list, after equal keys. -/
def insertByTs (m : Message) : List Message → List Message
  | [] => [m]
  | x :: xs => if m.timestamp < x.timestamp then m :: x :: xs else x :: insertByTs m xs

/-- Stable sort by ascending timestamp (`.sort("timestamp", 1)`). -/
def sortByTs : List Message → List Message
  | [] => []
  | m :: ms => insertByTs m (sortByTs ms)

/-- The filter of the history query: same conversation and same user. -/
def convMessages (msgs : List Message) (cid uid : String) : List Message :=
  msgs.filter (fun m => decide (m.conversation_id = cid ∧ m.user_id = uid))

/-- The history query of `event_generator` (server.py lines 430-433):
filter by conversation and user, sort ascending by timestamp, limit 10. -/
def loadHistory (msgs : List Message) (cid uid : String) : List Message :=
  (sortByTs (convMessages msgs cid uid)).take 10

/-- Modelled from the spec (section 8, "History bounding"): the context the
spec describes, namely the most recent 10 messages, oldest-first.  Used
only to compare the source's `loadHistory` against the spec's words. -/
def specRecentContext (msgs : List Message) (cid uid : String) : List Message :=
  let sorted := sortByTs (convMessages msgs cid uid)
  sorted.drop (sorted.length - 10)

/-- The conversation upsert (server.py lines 623-638):
`update_one({"id": cid}, {"$set": {updated_at, title}, "$setOnInsert":
{id, user_id, created_at}}, upsert=True)` — update the first matching row,
or append a fresh row carrying the set-on-insert fields. -/
def upsertConversation (cid uid title : String) (now : Nat) :
    List Conversation → List Conversation
  | [] => [{ id := cid, user_id := uid, title := title, created_at := now, updated_at := now }]
  | c :: cs =>
    if c.id = cid then { c with title := title, updated_at := now } :: cs
    else c :: upsertConversation cid uid title now cs

/-- Whether the provider family uses the single-shot adapter
(gpt/claude/gemini go through `stream_emergent_model`, the rest through
`stream_openai_compatible`). -/
def singleShotFamily (provider : String) : Bool :=
  provider == "gpt" || provider == "claude" || provider == "gemini"

/-- Fragments produced by the adapter a branch invokes. -/
def branchFragments (provider model_spec : String) (o : Oracle) (ctx : List RoleContent) :
    List String :=
  if singleShotFamily provider then stream_emergent_model ctx (o.llm model_spec)
  else stream_openai_compatible (o.http model_spec)

/-- The adapter fragments a branch keeps: the `if chunk:` truthiness test
applied to every yielded fragment (server.py lines 470, 532, ...). -/
def keptFragments (provider model_spec : String) (o : Oracle) (ctx : List RoleContent) :
    List String :=
  (branchFragments provider model_spec o ctx).filter (fun c => decide (c ≠ ""))

/-- One iteration of the `for model_spec in request.models` loop of
`event_generator` (server.py lines 443-621): mint a message id, emit
`start`, classify the model; an unmatched model falls through to the save
and `complete` step with empty content; a missing credential emits `error`
and `continue`s (persisting nothing); otherwise every nonempty adapter
fragment is accumulated and emitted as a `chunk`, the assistant row is
inserted, and `complete` is emitted. -/
def runBranch (user : UserT) (emergentKey : Option String) (o : Oracle)
    (ctx : List RoleContent) (cid model_spec : String) (st : St) : List Event × St :=
  let message_id := uuidStr st.nextUuid
  let st1 : St := { st with nextUuid := st.nextUuid + 1 }
  match classify model_spec with
  | none =>
    ([Event.start model_spec message_id, Event.complete model_spec message_id],
     { st1 with now := st1.now + 1,
                messages := st1.messages ++
                  [{ id := message_id, conversation_id := cid, role := "assistant",
                     content := "", model := model_spec, timestamp := st1.now,
                     user_id := user.id, feedback := none }] })
  | some provider =>
    let api_key := get_api_key user emergentKey provider
    if api_key = "" then
      ([Event.start model_spec message_id, Event.error model_spec "No API key configured"], st1)
    else
      let kept := keptFragments provider model_spec o ctx
      (Event.start model_spec message_id ::
         kept.map (fun c => Event.chunk model_spec message_id c) ++
         [Event.complete model_spec message_id],
       { st1 with now := st1.now + 1,
                  messages := st1.messages ++
                    [{ id := message_id, conversation_id := cid, role := "assistant",
                       content := strJoin kept, model := model_spec, timestamp := st1.now,
                       user_id := user.id, feedback := none }] })

/-- The whole model loop, in request order. -/
def runBranches (user : UserT) (emergentKey : Option String) (o : Oracle)
    (ctx : List RoleContent) (cid : String) : List String → St → List Event × St
  | [], st => ([], st)
  | m :: ms, st =>
    let r1 := runBranch user emergentKey o ctx cid m st
    let r2 := runBranches user emergentKey o ctx cid ms r1.2
    (r1.1 ++ r2.1, r2.2)

/-- `request.conversation_id or str(uuid.uuid4())`: an absent (or empty,
hence falsy) conversation id mints a fresh one. -/
def mintCid (req : ChatRequest) (st : St) : String × St :=
  match req.conversation_id with
  | some c => if c = "" then (uuidStr st.nextUuid, { st with nextUuid := st.nextUuid + 1 }) else (c, st)
  | none => (uuidStr st.nextUuid, { st with nextUuid := st.nextUuid + 1 })

/-- Persisting the user message (server.py lines 417-427). -/
def insertUserMsg (user : UserT) (req : ChatRequest) (cid : String) (st : St) : St :=
  { st with nextUuid := st.nextUuid + 1, now := st.now + 1,
            messages := st.messages ++
              [{ id := uuidStr st.nextUuid, conversation_id := cid, role := "user",
                 content := req.message, model := "user", timestamp := st.now,
                 user_id := user.id, feedback := none }] }

/-- The finalizing conversation upsert, with the title set to the first 50
characters of the user's message (server.py lines 623-638). -/
def finalizeConversation (user : UserT) (req : ChatRequest) (cid : String) (st : St) : St :=
  { st with now := st.now + 1,
            conversations :=
              upsertConversation cid user.id (req.message.take 50) st.now st.conversations }

/-- The body of `POST /api/chat/stream` (server.py lines 412-638): resolve
the conversation id, persist the user message, load the bounded history as
context, run every model branch in request order, and finally upsert the
conversation row.  Returns the outbound event sequence and the final
state. -/
def event_generator (user : UserT) (emergentKey : Option String) (o : Oracle)
    (req : ChatRequest) (st0 : St) : List Event × St :=
  let cid := (mintCid req st0).1
  let st1 := (mintCid req st0).2
  let st2 := insertUserMsg user req cid st1
  let ctx := (loadHistory st2.messages cid user.id).map (fun m => RoleContent.mk m.role m.content)
  let r := runBranches user emergentKey o ctx cid req.models st2
  (r.1, finalizeConversation user req cid r.2)

/-- Whether a branch reaches the persistence step: every classified model
with a nonempty resolved key persists, an unclassified model persists an
empty row, and a missing credential persists nothing. -/
def branchPersists (user : UserT) (emergentKey : Option String) (m : String) : Bool :=
  match classify m with
  | none => true
  | some p => decide (get_api_key user emergentKey p ≠ "")

/-- Number of rows with the given role. -/
def countRole (r : String) (msgs : List Message) : Nat :=
  (msgs.filter (fun m => decide (m.role = r))).length

/-- A model reached its terminal event in an event sequence: a `complete`,
or an `error` tagged with it. -/
def reachesTerminal (m : String) (evs : List Event) : Prop :=
  (∃ mid, Event.complete m mid ∈ evs) ∨ (∃ e, Event.error m e ∈ evs)

/-- Whether an event is an `error` event. -/
def isErrorEv : Event → Bool
  | .error _ _ => true
  | _ => false

/-! ### Concrete instances used in counterexamples and witnesses -/

/-- A user holding an explicit key for the grok family only. -/
def user0 : UserT := ⟨"u1", fun p => if p = "grok" then some "k" else none⟩

/-- A user with no stored keys at all. -/
def userNoKeys : UserT := ⟨"u1", fun _ => none⟩

/-- A user whose gpt entry is the "use shared fallback" sentinel. -/
def userU : UserT := ⟨"u2", fun p => if p = "gpt" then some "UNIVERSAL" else none⟩

/-- Two grok-family models, both streaming successfully. -/
def oracleOK : Oracle :=
  ⟨fun m => if m = "grok-a" then .ok ["x", "y"]
    else if m = "grok-b" then .ok ["z"] else .netFail "none",
   fun _ => .ok ""⟩

/-- Same world, but a transport failure injected into grok-a's adapter. -/
def oracleFail : Oracle :=
  ⟨fun m => if m = "grok-a" then .netFail "boom"
    else if m = "grok-b" then .ok ["z"] else .netFail "none",
   fun _ => .ok ""⟩

/-- Same world, but grok-a's provider answers a non-success HTTP status. -/
def oracleBad : Oracle :=
  ⟨fun m => if m = "grok-a" then .badStatus 500 "oops"
    else if m = "grok-b" then .ok ["z"] else .netFail "none",
   fun _ => .ok ""⟩

/-- The empty store with fresh supply and clock at zero. -/
def st00 : St := ⟨[], [], 0, 0⟩

/-- A two-model request on a fresh conversation. -/
def req0 : ChatRequest := ⟨"Hi", ["grok-a", "grok-b"], none⟩

/-- The i-th prior message of the history-bounding scenario. -/
def priorMsg (i : Nat) : Message :=
  ⟨"m" ++ toString i, "c", "user", "x", "user", i, "u", none⟩

/-- A store snapshot as seen by the history query: 15 prior messages plus
the just-persisted 16th user message, timestamps 0..15. -/
def dbC3 : List Message :=
  (List.range 15).map priorMsg ++ [⟨"new", "c", "user", "new", "user", 15, "u", none⟩]

/-! ### Helper lemmas: re-chunking -/

theorem trimDelimL_cons2 (c d : Char) (t : List Char) :
    trimDelimL (c :: d :: t) = c :: trimDelimL (d :: t) := rfl

theorem trimDelimL_append (a b : List Char) (hb : b ≠ []) :
    trimDelimL (a ++ b) = a ++ trimDelimL b := by
  induction a with
  | nil => simp
  | cons x a ih =>
    cases hab : a ++ b with
    | nil => exact absurd (List.append_eq_nil.mp hab).2 hb
    | cons y t =>
      rw [List.cons_append, hab, trimDelimL_cons2, ← hab, ih]
      rfl

theorem flattenL_map_cons (w : List Char) (ws : List (List Char)) :
    flattenL ((w :: ws).map (fun x => x ++ [' '])) =
      (w ++ [' ']) ++ flattenL (ws.map (fun x => x ++ [' '])) := rfl

theorem trim_flatten_words (ws : List (List Char)) :
    trimDelimL (flattenL (ws.map (fun w => w ++ [' ']))) = joinWords ws := by
  induction ws with
  | nil => rfl
  | cons w ws ih =>
    cases ws with
    | nil =>
      rw [flattenL_map_cons]
      show trimDelimL ((w ++ [' ']) ++ flattenL []) = joinWords [w]
      rw [show flattenL [] = [] from rfl, List.append_nil,
        trimDelimL_append w [' '] (by simp)]
      simp [joinWords, trimDelimL]
    | cons w2 ws2 =>
      have hne : flattenL ((w2 :: ws2).map (fun x => x ++ [' '])) ≠ [] := by
        rw [flattenL_map_cons]
        simp
      rw [flattenL_map_cons, trimDelimL_append _ _ hne, ih]
      show (w ++ [' ']) ++ joinWords (w2 :: ws2) = w ++ ' ' :: joinWords (w2 :: ws2)
      simp

/-! ### Helper lemmas: the sorted bounded history -/

theorem mem_insertByTs {y m : Message} {l : List Message} :
    y ∈ insertByTs m l ↔ y = m ∨ y ∈ l := by
  induction l with
  | nil => simp [insertByTs]
  | cons x xs ih =>
    simp only [insertByTs]
    split
    · simp [List.mem_cons]
    · simp only [List.mem_cons, ih]
      tauto

theorem pairwise_insertByTs {m : Message} {l : List Message}
    (h : l.Pairwise (fun a b => a.timestamp ≤ b.timestamp)) :
    (insertByTs m l).Pairwise (fun a b => a.timestamp ≤ b.timestamp) := by
  induction l with
  | nil => simp [insertByTs]
  | cons x xs ih =>
    rcases List.pairwise_cons.mp h with ⟨hx, hxs⟩
    simp only [insertByTs]
    split
    · rename_i hlt
      refine List.pairwise_cons.mpr ⟨?_, h⟩
      intro y hy
      rcases List.mem_cons.mp hy with rfl | hy2
      · exact Nat.le_of_lt hlt
      · exact Nat.le_trans (Nat.le_of_lt hlt) (hx y hy2)
    · rename_i hge
      refine List.pairwise_cons.mpr ⟨?_, ih hxs⟩
      intro y hy
      rcases mem_insertByTs.mp hy with rfl | hy2
      · exact Nat.not_lt.mp hge
      · exact hx y hy2

theorem sortByTs_pairwise (l : List Message) :
    (sortByTs l).Pairwise (fun a b => a.timestamp ≤ b.timestamp) := by
  induction l with
  | nil => simp [sortByTs]
  | cons m ms ih => exact pairwise_insertByTs ih

/-! ### Helper lemmas: miscellaneous -/

theorem jsonError_ne_empty (e : String) : jsonError e ≠ "" := by
  intro h
  have h2 := congrArg String.data h
  simp [jsonError, String.data_append] at h2

theorem countRole_of_all {r : String} {rows : List Message}
    (h : ∀ x ∈ rows, x.role = r) : countRole r rows = rows.length := by
  unfold countRole
  have heq : rows.filter (fun m => decide (m.role = r)) = rows :=
    List.filter_eq_self.mpr (fun a ha => by simp [h a ha])
  rw [heq]

theorem countRole_of_none {r : String} {rows : List Message}
    (h : ∀ x ∈ rows, x.role ≠ r) : countRole r rows = 0 := by
  unfold countRole
  have heq : rows.filter (fun m => decide (m.role = r)) = [] :=
    List.filter_eq_nil_iff.mpr (fun a ha => by simp [h a ha])
  rw [heq]
  rfl

/-! ### Helper lemmas: branch anatomy -/

theorem runBranch_unclassified (user : UserT) (k : Option String) (o : Oracle)
    (ctx : List RoleContent) (cid m : String) (st : St) (h : classify m = none) :
    runBranch user k o ctx cid m st =
      ([Event.start m (uuidStr st.nextUuid), Event.complete m (uuidStr st.nextUuid)],
       { st with nextUuid := st.nextUuid + 1, now := st.now + 1,
                 messages := st.messages ++
                   [{ id := uuidStr st.nextUuid, conversation_id := cid, role := "assistant",
                      content := "", model := m, timestamp := st.now,
                      user_id := user.id, feedback := none }] }) := by
  simp [runBranch, h]

theorem runBranch_missingKey (user : UserT) (k : Option String) (o : Oracle)
    (ctx : List RoleContent) (cid m p : String) (st : St) (h : classify m = some p)
    (hk : get_api_key user k p = "") :
    runBranch user k o ctx cid m st =
      ([Event.start m (uuidStr st.nextUuid), Event.error m "No API key configured"],
       { st with nextUuid := st.nextUuid + 1 }) := by
  simp [runBranch, h, hk]

theorem runBranch_withKey (user : UserT) (k : Option String) (o : Oracle)
    (ctx : List RoleContent) (cid m p : String) (st : St) (h : classify m = some p)
    (hk : get_api_key user k p ≠ "") :
    runBranch user k o ctx cid m st =
      (Event.start m (uuidStr st.nextUuid) ::
         (keptFragments p m o ctx).map (fun c => Event.chunk m (uuidStr st.nextUuid) c) ++
         [Event.complete m (uuidStr st.nextUuid)],
       { st with nextUuid := st.nextUuid + 1, now := st.now + 1,
                 messages := st.messages ++
                   [{ id := uuidStr st.nextUuid, conversation_id := cid, role := "assistant",
                      content := strJoin (keptFragments p m o ctx), model := m,
                      timestamp := st.now, user_id := user.id, feedback := none }] }) := by
  simp [runBranch, h, hk]

theorem runBranch_nextUuid (user : UserT) (k : Option String) (o : Oracle)
    (ctx : List RoleContent) (cid m : String) (st : St) :
    (runBranch user k o ctx cid m st).2.nextUuid = st.nextUuid + 1 := by
  rcases h : classify m with _ | p
  · rw [runBranch_unclassified user k o ctx cid m st h]
  · by_cases hk : get_api_key user k p = ""
    · rw [runBranch_missingKey user k o ctx cid m p st h hk]
    · rw [runBranch_withKey user k o ctx cid m p st h hk]

theorem runBranch_conversations (user : UserT) (k : Option String) (o : Oracle)
    (ctx : List RoleContent) (cid m : String) (st : St) :
    (runBranch user k o ctx cid m st).2.conversations = st.conversations := by
  rcases h : classify m with _ | p
  · rw [runBranch_unclassified user k o ctx cid m st h]
  · by_cases hk : get_api_key user k p = ""
    · rw [runBranch_missingKey user k o ctx cid m p st h hk]
    · rw [runBranch_withKey user k o ctx cid m p st h hk]

theorem runBranch_eventModel (user : UserT) (k : Option String) (o : Oracle)
    (ctx : List RoleContent) (cid m : String) (st : St) :
    ∀ e ∈ (runBranch user k o ctx cid m st).1, eventModel e = m := by
  rcases h : classify m with _ | p
  · rw [runBranch_unclassified user k o ctx cid m st h]
    intro e he
    rcases List.mem_cons.mp he with rfl | he2
    · rfl
    · rcases List.mem_cons.mp he2 with rfl | he3
      · rfl
      · simp at he3
  · by_cases hk : get_api_key user k p = ""
    · rw [runBranch_missingKey user k o ctx cid m p st h hk]
      intro e he
      rcases List.mem_cons.mp he with rfl | he2
      · rfl
      · rcases List.mem_cons.mp he2 with rfl | he3
        · rfl
        · simp at he3
    · rw [runBranch_withKey user k o ctx cid m p st h hk]
      intro e he
      rcases List.mem_cons.mp he with rfl | he2
      · rfl
      · rcases List.mem_append.mp he2 with he3 | he4
        · rcases List.mem_map.mp he3 with ⟨c, _, rfl⟩
          rfl
        · rcases List.mem_cons.mp he4 with rfl | he5
          · rfl
          · simp at he5

theorem runBranch_events_oracle (user : UserT) (k : Option String) (o1 o2 : Oracle)
    (ctx : List RoleContent) (cid m : String) (st1 st2 : St)
    (hu : st1.nextUuid = st2.nextUuid)
    (hh : o1.http m = o2.http m) (hl : o1.llm m = o2.llm m) :
    (runBranch user k o1 ctx cid m st1).1 = (runBranch user k o2 ctx cid m st2).1 := by
  have hkept : ∀ p, keptFragments p m o1 ctx = keptFragments p m o2 ctx := by
    intro p
    unfold keptFragments branchFragments
    rw [hh, hl]
  rcases h : classify m with _ | p
  · rw [runBranch_unclassified user k o1 ctx cid m st1 h,
      runBranch_unclassified user k o2 ctx cid m st2 h, hu]
  · by_cases hk : get_api_key user k p = ""
    · rw [runBranch_missingKey user k o1 ctx cid m p st1 h hk,
        runBranch_missingKey user k o2 ctx cid m p st2 h hk, hu]
    · rw [runBranch_withKey user k o1 ctx cid m p st1 h hk,
        runBranch_withKey user k o2 ctx cid m p st2 h hk, hu, hkept p]

theorem runBranch_terminal (user : UserT) (k : Option String) (o : Oracle)
    (ctx : List RoleContent) (cid m : String) (st : St) :
    reachesTerminal m (runBranch user k o ctx cid m st).1 := by
  rcases h : classify m with _ | p
  · rw [runBranch_unclassified user k o ctx cid m st h]
    exact Or.inl ⟨uuidStr st.nextUuid, by simp⟩
  · by_cases hk : get_api_key user k p = ""
    · rw [runBranch_missingKey user k o ctx cid m p st h hk]
      exact Or.inr ⟨"No API key configured", by simp⟩
    · rw [runBranch_withKey user k o ctx cid m p st h hk]
      exact Or.inl ⟨uuidStr st.nextUuid, by simp⟩

theorem runBranch_anatomy (user : UserT) (k : Option String) (o : Oracle)
    (ctx : List RoleContent) (cid m : String) (st : St) :
    ∃ rows : List Message,
      (runBranch user k o ctx cid m st).2.messages = st.messages ++ rows ∧
      rows.length = (if branchPersists user k m then 1 else 0) ∧
      (∀ x ∈ rows, x.role = "assistant" ∧ x.model = m ∧ x.id = uuidStr st.nextUuid ∧
        Event.start x.model x.id ∈ (runBranch user k o ctx cid m st).1 ∧
        Event.complete x.model x.id ∈ (runBranch user k o ctx cid m st).1) ∧
      (∀ mdl mid c, Event.chunk mdl mid c ∈ (runBranch user k o ctx cid m st).1 →
        ∃ x ∈ rows, x.id = mid ∧ x.model = mdl) := by
  rcases h : classify m with _ | p
  · rw [runBranch_unclassified user k o ctx cid m st h]
    refine ⟨[Message.mk (uuidStr st.nextUuid) cid "assistant" "" m st.now user.id none],
      rfl, ?_, ?_, ?_⟩
    · simp [branchPersists, h]
    · intro x hx
      rcases List.mem_singleton.mp hx with rfl
      exact ⟨rfl, rfl, rfl, by simp, by simp⟩
    · intro mdl mid c hc
      simp at hc
  · by_cases hk : get_api_key user k p = ""
    · rw [runBranch_missingKey user k o ctx cid m p st h hk]
      refine ⟨[], by simp, ?_, by simp, ?_⟩
      · simp [branchPersists, h, hk]
      · intro mdl mid c hc
        simp at hc
    · rw [runBranch_withKey user k o ctx cid m p st h hk]
      refine ⟨[Message.mk (uuidStr st.nextUuid) cid "assistant"
        (strJoin (keptFragments p m o ctx)) m st.now user.id none], rfl, ?_, ?_, ?_⟩
      · simp [branchPersists, h, hk]
      · intro x hx
        rcases List.mem_singleton.mp hx with rfl
        refine ⟨rfl, rfl, rfl, by simp, ?_⟩
        simp
      · intro mdl mid c hc
        rcases List.mem_cons.mp hc with hstart | hc2
        · simp at hstart
        · rcases List.mem_append.mp hc2 with hmap | hlast
          · rcases List.mem_map.mp hmap with ⟨a, _, heq⟩
            refine ⟨_, List.mem_singleton_self _, ?_, ?_⟩
            · cases heq
              rfl
            · cases heq
              rfl
          · rcases List.mem_cons.mp hlast with heq | hnil
            · simp at heq
            · simp at hnil

theorem runBranches_cons (user : UserT) (k : Option String) (o : Oracle)
    (ctx : List RoleContent) (cid m : String) (ms : List String) (st : St) :
    runBranches user k o ctx cid (m :: ms) st =
      ((runBranch user k o ctx cid m st).1 ++
         (runBranches user k o ctx cid ms (runBranch user k o ctx cid m st).2).1,
       (runBranches user k o ctx cid ms (runBranch user k o ctx cid m st).2).2) := rfl

theorem runBranches_filter_eq (user : UserT) (k : Option String)
    (ctx : List RoleContent) (cid : String) (ms : List String) (o1 o2 : Oracle) (f : String)
    (hag : ∀ m, m ≠ f → o1.http m = o2.http m ∧ o1.llm m = o2.llm m) :
    ∀ st1 st2 : St, st1.nextUuid = st2.nextUuid →
      ((runBranches user k o1 ctx cid ms st1).1.filter (fun e => decide (eventModel e ≠ f))) =
        ((runBranches user k o2 ctx cid ms st2).1.filter (fun e => decide (eventModel e ≠ f))) := by
  induction ms with
  | nil => intro st1 st2 _; rfl
  | cons m ms ih =>
    intro st1 st2 hu
    rw [runBranches_cons, runBranches_cons]
    simp only [List.filter_append]
    congr 1
    · by_cases hm : m = f
      · subst hm
        have h1 : ((runBranch user k o1 ctx cid m st1).1.filter
            (fun e => decide (eventModel e ≠ m))) = [] :=
          List.filter_eq_nil_iff.mpr (fun a ha => by
            simp [runBranch_eventModel user k o1 ctx cid m st1 a ha])
        have h2 : ((runBranch user k o2 ctx cid m st2).1.filter
            (fun e => decide (eventModel e ≠ m))) = [] :=
          List.filter_eq_nil_iff.mpr (fun a ha => by
            simp [runBranch_eventModel user k o2 ctx cid m st2 a ha])
        rw [h1, h2]
      · have h2 := hag m hm
        rw [runBranch_events_oracle user k o1 o2 ctx cid m st1 st2 hu h2.1 h2.2]
    · exact ih _ _ (by rw [runBranch_nextUuid, runBranch_nextUuid, hu])

theorem runBranches_terminal (user : UserT) (k : Option String) (o : Oracle)
    (ctx : List RoleContent) (cid : String) (ms : List String) :
    ∀ st : St, ∀ m ∈ ms, reachesTerminal m (runBranches user k o ctx cid ms st).1 := by
  induction ms with
  | nil =>
    intro st m hm
    simp at hm
  | cons m0 ms ih =>
    intro st m hm
    rw [runBranches_cons]
    rcases List.mem_cons.mp hm with rfl | hm2
    · rcases runBranch_terminal user k o ctx cid m st with ⟨mid, hmem⟩ | ⟨e, hmem⟩
      · exact Or.inl ⟨mid, List.mem_append_left _ hmem⟩
      · exact Or.inr ⟨e, List.mem_append_left _ hmem⟩
    · rcases ih _ m hm2 with ⟨mid, hmem⟩ | ⟨e, hmem⟩
      · exact Or.inl ⟨mid, List.mem_append_right _ hmem⟩
      · exact Or.inr ⟨e, List.mem_append_right _ hmem⟩

theorem runBranches_anatomy (user : UserT) (k : Option String) (o : Oracle)
    (ctx : List RoleContent) (cid : String) (ms : List String) :
    ∀ st : St, ∃ rows : List Message,
      (runBranches user k o ctx cid ms st).2.messages = st.messages ++ rows ∧
      rows.length = (ms.filter (branchPersists user k)).length ∧
      (∀ x ∈ rows, x.role = "assistant" ∧
        Event.start x.model x.id ∈ (runBranches user k o ctx cid ms st).1 ∧
        Event.complete x.model x.id ∈ (runBranches user k o ctx cid ms st).1) ∧
      (∀ mdl, (rows.filter (fun x => decide (x.model = mdl))).length =
        ((ms.filter (fun x => decide (x = mdl))).filter (branchPersists user k)).length) ∧
      (∀ mdl mid c, Event.chunk mdl mid c ∈ (runBranches user k o ctx cid ms st).1 →
        ∃ x ∈ rows, x.id = mid ∧ x.model = mdl) := by
  induction ms with
  | nil =>
    intro st
    refine ⟨[], by simp [runBranches], by simp, ?_, by simp, ?_⟩
    · intro x hx
      simp at hx
    · intro mdl mid c hc
      simp [runBranches] at hc
  | cons m ms ih =>
    intro st
    obtain ⟨rows1, hm1, hl1, hx1, hc1⟩ := runBranch_anatomy user k o ctx cid m st
    obtain ⟨rows2, hm2, hl2, hx2, hmod2, hc2⟩ := ih (runBranch user k o ctx cid m st).2
    refine ⟨rows1 ++ rows2, ?_, ?_, ?_, ?_, ?_⟩
    · rw [runBranches_cons]
      show (runBranches user k o ctx cid ms (runBranch user k o ctx cid m st).2).2.messages = _
      rw [hm2, hm1, List.append_assoc]
    · rw [List.length_append, hl1, hl2, List.filter_cons]
      by_cases hp : branchPersists user k m
      · simp [hp]
        omega
      · simp [hp]
    · intro x hx
      rw [runBranches_cons]
      rcases List.mem_append.mp hx with h1 | h2
      · obtain ⟨hrole, _, _, hs, hcpl⟩ := hx1 x h1
        exact ⟨hrole, List.mem_append_left _ hs, List.mem_append_left _ hcpl⟩
      · obtain ⟨hrole, hs, hcpl⟩ := hx2 x h2
        exact ⟨hrole, List.mem_append_right _ hs, List.mem_append_right _ hcpl⟩
    · intro mdl
      rw [List.filter_append, List.length_append]
      by_cases hm : m = mdl
      · subst hm
        have e1 : rows1.filter (fun x => decide (x.model = m)) = rows1 :=
          List.filter_eq_self.mpr (fun x hx => by simp [(hx1 x hx).2.1])
        rw [e1, hmod2 m, hl1]
        by_cases hp : branchPersists user k m
        · simp [List.filter_cons, hp]
          omega
        · simp [List.filter_cons, hp]
      · have e1 : rows1.filter (fun x => decide (x.model = mdl)) = [] :=
          List.filter_eq_nil_iff.mpr (fun x hx => by simp [(hx1 x hx).2.1, hm])
        rw [e1, hmod2 mdl, List.filter_cons]
        simp [hm]
    · intro mdl mid c hc
      rw [runBranches_cons] at hc
      rcases List.mem_append.mp hc with h1 | h2
      · obtain ⟨x, hx, hid, hmdl⟩ := hc1 mdl mid c h1
        exact ⟨x, List.mem_append_left _ hx, hid, hmdl⟩
      · obtain ⟨x, hx, hid, hmdl⟩ := hc2 mdl mid c h2
        exact ⟨x, List.mem_append_right _ hx, hid, hmdl⟩

/-! ### Helper lemmas: the generator pipeline -/

theorem mintCid_messages (req : ChatRequest) (st : St) :
    (mintCid req st).2.messages = st.messages := by
  cases hc : req.conversation_id with
  | none => simp [mintCid, hc]
  | some c =>
    simp only [mintCid, hc]
    split <;> rfl

theorem mintCid_conversations (req : ChatRequest) (st : St) :
    (mintCid req st).2.conversations = st.conversations := by
  cases hc : req.conversation_id with
  | none => simp [mintCid, hc]
  | some c =>
    simp only [mintCid, hc]
    split <;> rfl

theorem insertUserMsg_messages (user : UserT) (req : ChatRequest) (cid : String) (st : St) :
    (insertUserMsg user req cid st).messages =
      st.messages ++
        [Message.mk (uuidStr st.nextUuid) cid "user" req.message "user" st.now user.id none] := rfl

theorem finalize_messages (user : UserT) (req : ChatRequest) (cid : String) (st : St) :
    (finalizeConversation user req cid st).messages = st.messages := rfl

theorem event_generator_anatomy (user : UserT) (k : Option String) (o : Oracle)
    (req : ChatRequest) (st0 : St) :
    ∃ (urow : Message) (rows : List Message),
      (event_generator user k o req st0).2.messages = st0.messages ++ urow :: rows ∧
      urow.role = "user" ∧ urow.content = req.message ∧
      rows.length = (req.models.filter (branchPersists user k)).length ∧
      (∀ x ∈ rows, x.role = "assistant" ∧
        Event.start x.model x.id ∈ (event_generator user k o req st0).1 ∧
        Event.complete x.model x.id ∈ (event_generator user k o req st0).1) ∧
      (∀ mdl, (rows.filter (fun x => decide (x.model = mdl))).length =
        ((req.models.filter (fun x => decide (x = mdl))).filter (branchPersists user k)).length) ∧
      (∀ mdl mid c, Event.chunk mdl mid c ∈ (event_generator user k o req st0).1 →
        ∃ x ∈ rows, x.id = mid ∧ x.model = mdl) := by
  obtain ⟨rows, hmsg, hlen, hx, hmod, hc⟩ :=
    runBranches_anatomy user k o
      ((loadHistory
          (insertUserMsg user req (mintCid req st0).1 (mintCid req st0).2).messages
          (mintCid req st0).1 user.id).map (fun m => RoleContent.mk m.role m.content))
      (mintCid req st0).1 req.models
      (insertUserMsg user req (mintCid req st0).1 (mintCid req st0).2)
  have hev : (event_generator user k o req st0).1 =
      (runBranches user k o
        ((loadHistory
            (insertUserMsg user req (mintCid req st0).1 (mintCid req st0).2).messages
            (mintCid req st0).1 user.id).map (fun m => RoleContent.mk m.role m.content))
        (mintCid req st0).1 req.models
        (insertUserMsg user req (mintCid req st0).1 (mintCid req st0).2)).1 := rfl
  have hst : (event_generator user k o req st0).2.messages =
      (runBranches user k o
        ((loadHistory
            (insertUserMsg user req (mintCid req st0).1 (mintCid req st0).2).messages
            (mintCid req st0).1 user.id).map (fun m => RoleContent.mk m.role m.content))
        (mintCid req st0).1 req.models
        (insertUserMsg user req (mintCid req st0).1 (mintCid req st0).2)).2.messages := rfl
  refine ⟨Message.mk (uuidStr (mintCid req st0).2.nextUuid) (mintCid req st0).1 "user"
    req.message "user" (mintCid req st0).2.now user.id none, rows, ?_, rfl, rfl, hlen, ?_, hmod, ?_⟩
  · rw [hst, hmsg, insertUserMsg_messages, mintCid_messages, List.append_assoc]
    rfl
  · intro x hxmem
    obtain ⟨hrole, hs, hcpl⟩ := hx x hxmem
    rw [hev]
    exact ⟨hrole, hs, hcpl⟩
  · intro mdl mid c hcm
    rw [hev] at hcm
    exact hc mdl mid c hcm

theorem strJoin_singleton (s : String) : strJoin [s] = s := by
  show s ++ strJoin [] = s
  show s ++ "" = s
  simp

/-! ### Claim theorems -/

/-- C1, counterexample.  The claim says that with two or more models the
per-model branches run as independent concurrent tasks and that a failure
injected into one model's adapter does not delay, alter, or drop the
events of any sibling model.  On the code the branches run strictly one
after another inside a single loop: with models `["grok-a", "grok-b"]`,
every `grok-a` event precedes every `grok-b` event in both runs, and
injecting a transport failure into grok-a's adapter moves grok-b's `start`
event from position 4 to position 3 of the outbound sequence — the
sibling's events are displaced by the injected failure, so the branches
are not independent concurrent tasks. -/
theorem C1_counterexample :
    (event_generator user0 none oracleOK req0 st00).1 =
      [Event.start "grok-a" "uuid-2", Event.chunk "grok-a" "uuid-2" "x",
       Event.chunk "grok-a" "uuid-2" "y", Event.complete "grok-a" "uuid-2",
       Event.start "grok-b" "uuid-3", Event.chunk "grok-b" "uuid-3" "z",
       Event.complete "grok-b" "uuid-3"] ∧
    (event_generator user0 none oracleFail req0 st00).1 =
      [Event.start "grok-a" "uuid-2", Event.chunk "grok-a" "uuid-2" (jsonError "boom"),
       Event.complete "grok-a" "uuid-2",
       Event.start "grok-b" "uuid-3", Event.chunk "grok-b" "uuid-3" "z",
       Event.complete "grok-b" "uuid-3"] ∧
    (((event_generator user0 none oracleOK req0 st00).1.drop 4).head? =
      some (Event.start "grok-b" "uuid-3")) ∧
    (((event_generator user0 none oracleFail req0 st00).1.drop 4).head? ≠
      some (Event.start "grok-b" "uuid-3")) ∧
    (((event_generator user0 none oracleFail req0 st00).1.drop 3).head? =
      some (Event.start "grok-b" "uuid-3")) := by
  decide

/-- C1, amended.  Branches run sequentially in request order, not
concurrently; what does hold is failure isolation of event content: if two
worlds differ only in the adapter behaviour of one model `f`, the events
of every other model are identical in both runs (same events, same
per-model order — only their absolute positions can shift), and every
requested model still reaches its own terminal event. -/
theorem C1_amended (user : UserT) (k : Option String) (o1 o2 : Oracle) (req : ChatRequest)
    (st0 : St) (f : String)
    (hagree : ∀ m, m ≠ f → o1.http m = o2.http m ∧ o1.llm m = o2.llm m) :
    ((event_generator user k o1 req st0).1.filter (fun e => decide (eventModel e ≠ f))) =
      ((event_generator user k o2 req st0).1.filter (fun e => decide (eventModel e ≠ f))) ∧
    ∀ m ∈ req.models, reachesTerminal m (event_generator user k o1 req st0).1 := by
  constructor
  · exact runBranches_filter_eq user k
      ((loadHistory
          (insertUserMsg user req (mintCid req st0).1 (mintCid req st0).2).messages
          (mintCid req st0).1 user.id).map (fun m => RoleContent.mk m.role m.content))
      (mintCid req st0).1 req.models o1 o2 f hagree
      (insertUserMsg user req (mintCid req st0).1 (mintCid req st0).2)
      (insertUserMsg user req (mintCid req st0).1 (mintCid req st0).2) rfl
  · intro m hm
    exact runBranches_terminal user k o1
      ((loadHistory
          (insertUserMsg user req (mintCid req st0).1 (mintCid req st0).2).messages
          (mintCid req st0).1 user.id).map (fun m => RoleContent.mk m.role m.content))
      (mintCid req st0).1 req.models
      (insertUserMsg user req (mintCid req st0).1 (mintCid req st0).2) m hm

/-- C1, witness for the amended theorem at the concrete two-model
request: the runs with and without the injected grok-a failure agree on
all events not tagged grok-a. -/
theorem C1_amended_witness :
    ((event_generator user0 none oracleFail req0 st00).1.filter
        (fun e => decide (eventModel e ≠ "grok-a"))) =
      ((event_generator user0 none oracleOK req0 st00).1.filter
        (fun e => decide (eventModel e ≠ "grok-a"))) :=
  (C1_amended user0 none oracleFail oracleOK req0 st00 "grok-a"
    (fun m hm => by simp [oracleFail, oracleOK, hm])).1

/-- C2, counterexample.  The claim says a model matching no routing rule
emits no event at all.  On the code the `start` event is emitted before
the routing rules are consulted and the fall-through still reaches the
save-and-`complete` step, so the unrecognized model `"llama-3"` emits a
`start` and a `complete` event. -/
theorem C2_counterexample :
    classify "llama-3" = none ∧
    (event_generator userNoKeys none oracleOK (ChatRequest.mk "Hi" ["llama-3"] none) st00).1 =
      [Event.start "llama-3" "uuid-2", Event.complete "llama-3" "uuid-2"] ∧
    ((event_generator userNoKeys none oracleOK
        (ChatRequest.mk "Hi" ["llama-3"] none) st00).1.filter
      (fun e => decide (eventModel e = "llama-3"))) ≠ [] := by
  decide

/-- C2, amended.  A model matching no routing rule emits exactly a `start`
and a `complete` event (no chunks, no error, no crash) and persists one
assistant row with empty content. -/
theorem C2_amended (user : UserT) (k : Option String) (o : Oracle) (ctx : List RoleContent)
    (cid m : String) (st : St) (h : classify m = none) :
    (runBranch user k o ctx cid m st).1 =
      [Event.start m (uuidStr st.nextUuid), Event.complete m (uuidStr st.nextUuid)] ∧
    (runBranch user k o ctx cid m st).2.messages =
      st.messages ++
        [Message.mk (uuidStr st.nextUuid) cid "assistant" "" m st.now user.id none] := by
  rw [runBranch_unclassified user k o ctx cid m st h]
  exact ⟨rfl, rfl⟩

/-- C2, witness for the amended theorem at the unrecognized model
`"llama-3"`. -/
theorem C2_amended_witness :
    (runBranch userNoKeys none oracleOK [] "c" "llama-3" st00).1 =
      [Event.start "llama-3" (uuidStr st00.nextUuid),
       Event.complete "llama-3" (uuidStr st00.nextUuid)] :=
  (C2_amended userNoKeys none oracleOK [] "c" "llama-3" st00 (by decide)).1

/-- C3, counterexample.  The claim says that with more than 10 persisted
messages the loaded context is the most recent 10, oldest-first.  The
source sorts ascending by timestamp and then limits to 10, which keeps
the OLDEST 10: with 15 prior messages (timestamps 0–14) plus the freshly
persisted user message (timestamp 15), the loaded context is timestamps
0–9, not the most recent 10 (timestamps 6–15) described by the spec. -/
theorem C3_counterexample :
    (loadHistory dbC3 "c" "u").map (fun m => m.timestamp) =
      [0, 1, 2, 3, 4, 5, 6, 7, 8, 9] ∧
    (specRecentContext dbC3 "c" "u").map (fun m => m.timestamp) =
      [6, 7, 8, 9, 10, 11, 12, 13, 14, 15] ∧
    loadHistory dbC3 "c" "u" ≠ specRecentContext dbC3 "c" "u" := by
  decide

/-- C3, amended.  The loaded context contains at most 10 messages,
ordered oldest-first (ascending timestamps), and those are the OLDEST
matching messages: every message cut off by the limit has a timestamp no
smaller than every message in the context. -/
theorem C3_amended (msgs : List Message) (cid uid : String) :
    (loadHistory msgs cid uid).length ≤ 10 ∧
    (loadHistory msgs cid uid).Pairwise (fun a b => a.timestamp ≤ b.timestamp) ∧
    ∀ x ∈ loadHistory msgs cid uid,
      ∀ y ∈ (sortByTs (convMessages msgs cid uid)).drop 10, x.timestamp ≤ y.timestamp := by
  unfold loadHistory
  refine ⟨List.length_take_le _ _, ?_, ?_⟩
  · exact (sortByTs_pairwise _).sublist (List.take_sublist _ _)
  · intro x hx y hy
    have hp := sortByTs_pairwise (convMessages msgs cid uid)
    rw [← List.take_append_drop 10 (sortByTs (convMessages msgs cid uid))] at hp
    exact (List.pairwise_append.mp hp).2.2 x hx y hy

/-- C3, witness for the amended theorem at the concrete 16-message
store. -/
theorem C3_amended_witness : (loadHistory dbC3 "c" "u").length ≤ 10 :=
  (C3_amended dbC3 "c" "u").1

/-- C4, counterexample.  The claim says exactly one assistant row is
persisted per requested model even on failure, including a missing
credential.  On the code the missing-credential path `continue`s before
the insert: the user has no grok key, so the branch emits
`start`/`error` and persists NO assistant row at all. -/
theorem C4_counterexample :
    countRole "user"
        (event_generator userNoKeys none oracleOK
          (ChatRequest.mk "Hi" ["grok-a"] none) st00).2.messages = 1 ∧
    countRole "assistant"
        (event_generator userNoKeys none oracleOK
          (ChatRequest.mk "Hi" ["grok-a"] none) st00).2.messages = 0 ∧
    (event_generator userNoKeys none oracleOK
        (ChatRequest.mk "Hi" ["grok-a"] none) st00).1 =
      [Event.start "grok-a" "uuid-2", Event.error "grok-a" "No API key configured"] := by
  decide

/-- C4, amended.  Exactly one user row is persisted per run; one
assistant row is persisted per requested model entry whose branch reaches
the save step (classified with a nonempty resolved credential, or
unclassified, in which case the row has empty content) — and none for a
missing-credential branch.  The per-model conjunct counts rows carrying
each model identifier. -/
theorem C4_amended (user : UserT) (k : Option String) (o : Oracle) (req : ChatRequest)
    (st0 : St) :
    ∃ (urow : Message) (rows : List Message),
      (event_generator user k o req st0).2.messages = st0.messages ++ urow :: rows ∧
      urow.role = "user" ∧
      countRole "user" rows = 0 ∧
      countRole "assistant" rows = (req.models.filter (branchPersists user k)).length ∧
      ∀ mdl, (rows.filter (fun x => decide (x.model = mdl))).length =
        ((req.models.filter (fun x => decide (x = mdl))).filter (branchPersists user k)).length := by
  obtain ⟨urow, rows, hmsg, hurole, _, hlen, hx, hmod, _⟩ :=
    event_generator_anatomy user k o req st0
  refine ⟨urow, rows, hmsg, hurole, ?_, ?_, hmod⟩
  · exact countRole_of_none (fun x hx2 => by rw [(hx x hx2).1]; decide)
  · rw [countRole_of_all (fun x hx2 => (hx x hx2).1), hlen]

/-- C4, witness for the amended theorem: at the concrete two-model run
the rows after the user row contain no user-role row. -/
theorem C4_amended_witness :
    countRole "user" ((event_generator user0 none oracleOK req0 st00).2.messages.drop 1) = 0 := by
  obtain ⟨urow, rows, hmsg, _, hu0, _, _⟩ := C4_amended user0 none oracleOK req0 st00
  rw [hmsg]
  simpa [st00] using hu0

/-- C5, counterexample.  The claim says an adapter failure makes the
branch terminate with an `error` event and no `complete`.  On the code
the adapter catches its own exception and yields the serialized error as
an ordinary fragment: the branch emits a `chunk` whose content is the
error JSON, persists the row, and terminates with `complete`; no `error`
event appears anywhere in the run. -/
theorem C5_counterexample :
    (event_generator user0 none oracleFail (ChatRequest.mk "Hi" ["grok-a"] none) st00).1 =
      [Event.start "grok-a" "uuid-2",
       Event.chunk "grok-a" "uuid-2" (jsonError "boom"),
       Event.complete "grok-a" "uuid-2"] ∧
    ((event_generator user0 none oracleFail
        (ChatRequest.mk "Hi" ["grok-a"] none) st00).1.filter isErrorEv) = [] := by
  decide

/-- C5, amended.  An adapter failure in a token-stream branch with a
resolved credential — a transport failure, or a non-success HTTP status
(whose serialized text is `"API error: <status> - <body>"`) — is
serialized into the branch's content: the branch emits `start`, a single
`chunk` carrying the error JSON, and `complete`, and persists one
assistant row whose content is that error JSON; no `error` event is
emitted for an adapter failure (the source emits `error` events only for
missing credentials, and without a message id). -/
theorem C5_amended (user : UserT) (k : Option String) (o : Oracle) (ctx : List RoleContent)
    (cid m p e : String) (st : St) (hp : classify m = some p)
    (hkey : get_api_key user k p ≠ "") (hfam : singleShotFamily p = false)
    (hfail : o.http m = HttpOutcome.netFail e ∨
      ∃ code body, o.http m = HttpOutcome.badStatus code body ∧
        e = "API error: " ++ toString code ++ " - " ++ body) :
    (runBranch user k o ctx cid m st).1 =
      [Event.start m (uuidStr st.nextUuid),
       Event.chunk m (uuidStr st.nextUuid) (jsonError e),
       Event.complete m (uuidStr st.nextUuid)] ∧
    (runBranch user k o ctx cid m st).2.messages =
      st.messages ++
        [Message.mk (uuidStr st.nextUuid) cid "assistant" (jsonError e) m st.now
          user.id none] := by
  have hkept : keptFragments p m o ctx = [jsonError e] := by
    unfold keptFragments branchFragments
    rcases hfail with hnet | ⟨code, body, hbad, he⟩
    · simp [hfam, hnet, stream_openai_compatible, jsonError_ne_empty e]
    · subst he
      simp [hfam, hbad, stream_openai_compatible, jsonError_ne_empty]
  rw [runBranch_withKey user k o ctx cid m p st hp hkey, hkept]
  refine ⟨rfl, ?_⟩
  rw [strJoin_singleton]

/-- C5, witness for the amended theorem, exercising both failure modes:
the concrete transport failure and the concrete non-success HTTP
status. -/
theorem C5_amended_witness :
    (runBranch user0 none oracleFail [] "c" "grok-a" st00).1 =
      [Event.start "grok-a" (uuidStr st00.nextUuid),
       Event.chunk "grok-a" (uuidStr st00.nextUuid) (jsonError "boom"),
       Event.complete "grok-a" (uuidStr st00.nextUuid)] ∧
    (runBranch user0 none oracleBad [] "c" "grok-a" st00).1 =
      [Event.start "grok-a" (uuidStr st00.nextUuid),
       Event.chunk "grok-a" (uuidStr st00.nextUuid)
         (jsonError ("API error: " ++ toString 500 ++ " - " ++ "oops")),
       Event.complete "grok-a" (uuidStr st00.nextUuid)] :=
  ⟨(C5_amended user0 none oracleFail [] "c" "grok-a" "grok" "boom" st00 (by decide) (by decide)
      (by decide) (Or.inl (by decide))).1,
   (C5_amended user0 none oracleBad [] "c" "grok-a" "grok"
      ("API error: " ++ toString 500 ++ " - " ++ "oops") st00 (by decide) (by decide)
      (by decide) (Or.inr ⟨500, "oops", by decide, rfl⟩)).1⟩

theorem insertUserMsg_conversations (user : UserT) (req : ChatRequest) (cid : String)
    (st : St) : (insertUserMsg user req cid st).conversations = st.conversations := rfl

/-- C6, counterexample.  The claim says an empty models list or an empty
message fails the whole call as an InvalidRequest before any branch
starts.  The code performs no request validation at all: with an empty
message the branch runs normally and emits its events, and with an empty
models list the call still persists the user message and upserts the
conversation row instead of failing. -/
theorem C6_counterexample :
    (event_generator user0 none oracleOK (ChatRequest.mk "" ["grok-a"] none) st00).1 =
      [Event.start "grok-a" "uuid-2", Event.chunk "grok-a" "uuid-2" "x",
       Event.chunk "grok-a" "uuid-2" "y", Event.complete "grok-a" "uuid-2"] ∧
    (event_generator user0 none oracleOK (ChatRequest.mk "hello" [] none) st00).1 = [] ∧
    (event_generator user0 none oracleOK
        (ChatRequest.mk "hello" [] none) st00).2.messages ≠ [] ∧
    (event_generator user0 none oracleOK
        (ChatRequest.mk "hello" [] none) st00).2.conversations ≠ [] := by
  decide

/-- C6, amended.  No validation exists: an empty message is processed
like any other (its branches run, as the counterexample shows), and an
empty models list emits no branch events but still persists the user
message and upserts the conversation row. -/
theorem C6_amended (user : UserT) (k : Option String) (o : Oracle) (message : String)
    (copt : Option String) (st0 : St) :
    (event_generator user k o (ChatRequest.mk message [] copt) st0).1 = [] ∧
    (∃ row, (event_generator user k o (ChatRequest.mk message [] copt) st0).2.messages =
        st0.messages ++ [row] ∧ row.role = "user" ∧ row.content = message) ∧
    ∃ cid ts, (event_generator user k o (ChatRequest.mk message [] copt) st0).2.conversations =
        upsertConversation cid user.id (message.take 50) ts st0.conversations := by
  refine ⟨rfl, ?_, ?_⟩
  · refine ⟨Message.mk
      (uuidStr (mintCid (ChatRequest.mk message [] copt) st0).2.nextUuid)
      (mintCid (ChatRequest.mk message [] copt) st0).1 "user" message "user"
      (mintCid (ChatRequest.mk message [] copt) st0).2.now user.id none, ?_, rfl, rfl⟩
    have hrfl : (event_generator user k o (ChatRequest.mk message [] copt) st0).2.messages =
        (insertUserMsg user (ChatRequest.mk message [] copt)
          (mintCid (ChatRequest.mk message [] copt) st0).1
          (mintCid (ChatRequest.mk message [] copt) st0).2).messages := rfl
    rw [hrfl, insertUserMsg_messages, mintCid_messages]
  · refine ⟨(mintCid (ChatRequest.mk message [] copt) st0).1,
      (insertUserMsg user (ChatRequest.mk message [] copt)
        (mintCid (ChatRequest.mk message [] copt) st0).1
        (mintCid (ChatRequest.mk message [] copt) st0).2).now, ?_⟩
    have hrfl : (event_generator user k o (ChatRequest.mk message [] copt) st0).2.conversations =
        upsertConversation (mintCid (ChatRequest.mk message [] copt) st0).1 user.id
          (message.take 50)
          (insertUserMsg user (ChatRequest.mk message [] copt)
            (mintCid (ChatRequest.mk message [] copt) st0).1
            (mintCid (ChatRequest.mk message [] copt) st0).2).now
          (insertUserMsg user (ChatRequest.mk message [] copt)
            (mintCid (ChatRequest.mk message [] copt) st0).1
            (mintCid (ChatRequest.mk message [] copt) st0).2).conversations := rfl
    rw [hrfl, insertUserMsg_conversations, mintCid_conversations]

/-- C6, witness for the amended theorem: the empty-models run emits no
events. -/
theorem C6_amended_witness :
    (event_generator user0 none oracleOK (ChatRequest.mk "hello" [] none) st00).1 = [] :=
  (C6_amended user0 none oracleOK "hello" none st00).1

/-- C7, counterexample.  The claim says the concatenation of the
re-chunked fragments, after trimming the injected delimiter, equals the
original response exactly.  Python `str.split()` collapses whitespace
runs: for the response `"a  b"` (two spaces) the round trip yields
`"a b"`, not the original. -/
theorem C7_counterexample :
    trimDelimL (flattenL (rechunkL ("a  b".toList))) ≠ "a  b".toList ∧
    trimDelimL (flattenL (rechunkL ("a  b".toList))) = "a b".toList := by
  decide

/-- C7, amended.  The concatenation of all re-chunked fragments, after
trimming the injected trailing delimiter, equals the WORDS of the
original response joined by single spaces — i.e. the original up to
whitespace normalisation, and the original exactly when it is already
single-space separated with no leading or trailing whitespace. -/
theorem C7_amended (r : List Char) :
    trimDelimL (flattenL (rechunkL r)) = joinWords (pyWords r) := by
  unfold rechunkL
  exact trim_flatten_words (pyWords r)

/-- C7, witness instantiating the amended round-trip law. -/
theorem C7_amended_witness :
    trimDelimL (flattenL (rechunkL ("x y".toList))) = joinWords (pyWords ("x y".toList)) :=
  C7_amended ("x y".toList)

/-- C8, confirmed.  (1) A provider whose stored key is the
"use shared fallback" sentinel resolves to the shared fallback secret.
(2) When the resolved credential is empty, the branch emits a `start`
followed immediately by an `error` event, and the whole branch outcome is
independent of the oracle — the adapter is never invoked and no network
call can occur. -/
theorem C8_confirmed :
    (∀ (user : UserT) (k : Option String) (p fb : String),
      user.api_keys p = some "UNIVERSAL" → k = some fb → get_api_key user k p = fb) ∧
    (∀ (user : UserT) (k : Option String) (o1 o2 : Oracle) (ctx : List RoleContent)
      (cid m p : String) (st : St), classify m = some p → get_api_key user k p = "" →
      (runBranch user k o1 ctx cid m st).1 =
        [Event.start m (uuidStr st.nextUuid), Event.error m "No API key configured"] ∧
      runBranch user k o1 ctx cid m st = runBranch user k o2 ctx cid m st) := by
  constructor
  · intro user k p fb hs hk
    subst hk
    simp [get_api_key, hs]
  · intro user k o1 o2 ctx cid m p st h hk
    rw [runBranch_missingKey user k o1 ctx cid m p st h hk,
      runBranch_missingKey user k o2 ctx cid m p st h hk]
    exact ⟨rfl, rfl⟩

/-- C8, witness: the sentinel user resolves to the shared secret, and the
keyless user's grok branch short-circuits to an error. -/
theorem C8_witness :
    get_api_key userU (some "shared-secret") "gpt" = "shared-secret" ∧
    (runBranch userNoKeys none oracleOK [] "c" "grok-a" st00).1 =
      [Event.start "grok-a" (uuidStr st00.nextUuid),
       Event.error "grok-a" "No API key configured"] :=
  ⟨C8_confirmed.1 userU (some "shared-secret") "gpt" "shared-secret" (by decide) rfl,
   (C8_confirmed.2 userNoKeys none oracleOK oracleFail [] "c" "grok-a" "grok" st00
     (by decide) (by decide)).1⟩

theorem upsert_of_notMem (cid uid title : String) (n : Nat) (convs : List Conversation)
    (h : ∀ c ∈ convs, c.id ≠ cid) :
    upsertConversation cid uid title n convs =
      convs ++ [Conversation.mk cid uid title n n] := by
  induction convs with
  | nil => rfl
  | cons c cs ih =>
    have hc : c.id ≠ cid := h c (List.mem_cons_self c cs)
    simp only [upsertConversation]
    rw [if_neg hc, ih (fun x hx => h x (List.mem_cons_of_mem c hx))]
    rfl

theorem upsert_append_match (cid uid title : String) (n : Nat) (convs : List Conversation)
    (row : Conversation) (h : ∀ c ∈ convs, c.id ≠ cid) (hrow : row.id = cid) :
    upsertConversation cid uid title n (convs ++ [row]) =
      convs ++ [Conversation.mk row.id row.user_id title row.created_at n] := by
  induction convs with
  | nil =>
    show upsertConversation cid uid title n (row :: []) = _
    simp only [upsertConversation]
    rw [if_pos hrow]
    rfl
  | cons c cs ih =>
    have hc : c.id ≠ cid := h c (List.mem_cons_self c cs)
    show upsertConversation cid uid title n (c :: (cs ++ [row])) = _
    simp only [upsertConversation]
    rw [if_neg hc, ih (fun x hx => h x (List.mem_cons_of_mem c hx))]
    rfl

/-- C9, confirmed.  Running the Finalizing upsert twice with the same
conversation id on a store not yet containing it yields exactly one
matching Conversation row: `created_at` (and the owner) come from the
first run only, while the second run rewrites `updated_at` to its own
clock and the title to the first 50 characters of the user's message. -/
theorem C9_confirmed (user : UserT) (req : ChatRequest) (cid : String) (st : St)
    (hnone : ∀ c ∈ st.conversations, c.id ≠ cid) :
    (finalizeConversation user req cid (finalizeConversation user req cid st)).conversations =
      st.conversations ++
        [Conversation.mk cid user.id (req.message.take 50) st.now (st.now + 1)] := by
  have h1 : (finalizeConversation user req cid st).conversations =
      st.conversations ++
        [Conversation.mk cid user.id (req.message.take 50) st.now st.now] :=
    upsert_of_notMem _ _ _ _ _ hnone
  show upsertConversation cid user.id (req.message.take 50)
      (finalizeConversation user req cid st).now
      (finalizeConversation user req cid st).conversations = _
  rw [h1]
  have h2 : (finalizeConversation user req cid st).now = st.now + 1 := rfl
  rw [h2, upsert_append_match _ _ _ _ _ _ hnone rfl]

/-- C9, witness at a concrete empty store. -/
theorem C9_witness :
    (finalizeConversation user0 req0 "c0"
      (finalizeConversation user0 req0 "c0" st00)).conversations =
      st00.conversations ++
        [Conversation.mk "c0" user0.id (req0.message.take 50) st00.now (st00.now + 1)] :=
  C9_confirmed user0 req0 "c0" st00 (by simp [st00])

/-- C10, confirmed.  Every assistant row persisted by a run carries as
its id the message id tagged on that branch's `start` and `complete`
events, and every `chunk` event's message id is the id of a persisted
assistant row with the same model — so streamed events can be correlated
with stored rows. -/
theorem C10_confirmed (user : UserT) (k : Option String) (o : Oracle) (req : ChatRequest)
    (st0 : St) :
    (∀ row ∈ (event_generator user k o req st0).2.messages.drop st0.messages.length,
      row.role = "assistant" →
        Event.start row.model row.id ∈ (event_generator user k o req st0).1 ∧
        Event.complete row.model row.id ∈ (event_generator user k o req st0).1) ∧
    (∀ mdl mid c, Event.chunk mdl mid c ∈ (event_generator user k o req st0).1 →
      ∃ row ∈ (event_generator user k o req st0).2.messages.drop st0.messages.length,
        row.id = mid ∧ row.model = mdl) := by
  obtain ⟨urow, rows, hmsg, hurole, _, _, hx, _, hc⟩ := event_generator_anatomy user k o req st0
  have hdrop : (event_generator user k o req st0).2.messages.drop st0.messages.length =
      urow :: rows := by
    rw [hmsg, List.drop_left]
  constructor
  · intro row hrow hrole
    rw [hdrop] at hrow
    rcases List.mem_cons.mp hrow with rfl | h2
    · rw [hurole] at hrole
      exact absurd hrole (by decide)
    · exact ⟨(hx row h2).2.1, (hx row h2).2.2⟩
  · intro mdl mid c hcm
    obtain ⟨x, hxm, hid, hm⟩ := hc mdl mid c hcm
    refine ⟨x, ?_, hid, hm⟩
    rw [hdrop]
    exact List.mem_cons_of_mem _ hxm

/-- C10, witness: in the concrete two-model run the persisted grok-b row
has id `uuid-3`, matching its branch's `complete` event. -/
theorem C10_witness :
    Event.complete "grok-b" "uuid-3" ∈ (event_generator user0 none oracleOK req0 st00).1 :=
  ((C10_confirmed user0 none oracleOK req0 st00).1
    (Message.mk "uuid-3" "uuid-0" "assistant" "z" "grok-b" 2 "u1" none)
    (by decide) (by decide)).2

end Multimodel
